import Mathlib

/-!
Verification of the `build_manpages` core of argparse-manpage
(`build_manpages/build_manpages.py`): the specification-text parser
`parse_manpages_spec`, the settings resolution in `finalize_options` /
`get_pyproject_settings`, and the generation dispatcher `build_manpages.run`.

The Python code is shallowly embedded:
 - Python `dict` values become association lists with Python's assignment
   semantics (`dictInsert` updates an existing key in place, otherwise
   appends at the end, matching insertion-ordered dicts);
 - `str.split(sep)` (single-character separators `':'`, `'='`, `'\n'`,
   `'/'` are the only ones the code uses) becomes `pySplit`, and
   `str.strip()` becomes `pyStrip` (ASCII whitespace);
 - raised exceptions become `Except` errors: `Err.unpackError` models the
   `ValueError` raised by the 2-tuple unpacking `oname, ovalue =
   option.split('=')`, `Err.assertionError` the `AssertionError` of the
   duplicate-field `assert` statements, `Err.unknownOption` the
   `ValueError("Unknown manpage configuration option: ...")`, and
   `Err.attributeError` the (unreachable) `AttributeError` that
   `manpagedata.setdefault("authors", []).append(...)` would raise if the
   key held a plain string;
 - the external collaborators used by `run` (`get_parser`, `Manpage`,
   `write_to_filename`, `ManPageWriter`) are recorded as events in a trace
   rather than performed.
-/

namespace ArgparseManpage

/-- A value stored in a page-record dictionary: the Python code stores
strings for every field except `authors`, which holds a list of strings. -/
inductive Value where
  | str (s : String)
  | strs (l : List String)
deriving DecidableEq, Repr

/-- A page record: `manpagedata` in the source, a Python dict from field
name to value, embedded as an insertion-ordered association list. -/
abbrev Record := List (String × Value)

/-- Python dict lookup (`d[k]` / `d.get(k)`): first (unique) matching key. -/
def dictLookup {β : Type} : List (String × β) → String → Option β
  | [], _ => none
  | (k', v') :: rest, k => if k' = k then some v' else dictLookup rest k

/-- Python dict assignment `d[k] = v`: replace the value in place if the key
is present, otherwise append the new binding at the end. -/
def dictInsert {β : Type} : List (String × β) → String → β → List (String × β)
  | [], k, v => [(k, v)]
  | (k', v') :: rest, k, v =>
    if k' = k then (k, v) :: rest else (k', v') :: dictInsert rest k v

/-- Python `k in d`. -/
def containsK (r : Record) (k : String) : Bool := (dictLookup r k).isSome

/-- Errors raised by `parse_manpages_spec` (see the module docstring). -/
inductive Err where
  | unpackError
  | assertionError
  | attributeError
  | unknownOption (oname : String)
deriving DecidableEq, Repr

/-- Core of Python's `str.split(sep)` for a single-character separator,
working on the character list.  `splitChars sep l` is never empty, and
`''.split(sep) == ['']` holds as in Python. -/
def splitChars (sep : Char) : List Char → List (List Char)
  | [] => [[]]
  | c :: cs =>
    if c = sep then [] :: splitChars sep cs
    else
      match splitChars sep cs with
      | [] => [[c]]
      | h :: t => (c :: h) :: t

/-- Python `s.split(sep)` for a one-character separator. -/
def pySplit (s : String) (sep : Char) : List String :=
  (splitChars sep s.data).map String.mk

/-- Python `s.strip()`: remove trailing, then leading whitespace.
(Python also strips a few exotic whitespace code points; the code only ever
meets spaces, tabs and newlines.) -/
def pyStripChars (l : List Char) : List Char :=
  ((l.reverse.dropWhile Char.isWhitespace).reverse).dropWhile Char.isWhitespace

/-- Python `s.strip()` on strings. -/
def pyStrip (s : String) : String := String.mk (pyStripChars s.data)

/-- `os.path.basename` on POSIX paths: everything after the last `'/'`. -/
def basename (p : String) : String := (pySplit p '/').getLastD ""

/-- The option names with dedicated branches in `parse_manpages_spec`. -/
def SPECIAL_OPTS : List String :=
  ["function", "object", "pyfile", "module", "format", "author"]

/-- Modelled from the spec: the allow-list `MANPAGE_DATA_ATTRS` is imported
from `argparse_manpage.manpage`, which is not among the sources.  Section 3
of the spec describes it as a fixed allow-list of recognized manual-page
metadata attributes (title, section, description, date, manfile, ...) that
includes the record fields `prog` and `authors` (sections 3 and 4.3).  All
general theorems below are parametric in this list; it is only used to
instantiate counterexamples and witnesses. -/
def MANPAGE_DATA_ATTRS : List String :=
  ["authors", "description", "long_description", "project_name", "prog",
   "url", "version", "date", "manual_section", "manual_title", "manfile"]

/-- One iteration of the option-dispatch chain of `parse_manpages_spec`
(lines 50-74 of the source), after the token has been split into
`(oname, ovalue)`.  `attrs` stands for `MANPAGE_DATA_ATTRS`. -/
def applyOption (attrs : List String) (data : Record) (oname ovalue : String) :
    Except Err Record :=
  if oname = "function" ∨ oname = "object" then
    if containsK data "objtype" then .error .assertionError
    else .ok (dictInsert (dictInsert data "objtype" (.str oname)) "objname" (.str ovalue))
  else if oname = "pyfile" ∨ oname = "module" then
    if containsK data "import_type" then .error .assertionError
    else
      let d := dictInsert (dictInsert data "import_type" (.str oname))
        "import_from" (.str ovalue)
      if oname = "pyfile" then .ok (dictInsert d "prog" (.str (basename ovalue)))
      else .ok d
  else if oname = "format" then
    if containsK data "format" then .error .assertionError
    else .ok (dictInsert data "format" (.str ovalue))
  else if oname = "author" then
    match dictLookup data "authors" with
    | none => .ok (dictInsert data "authors" (.strs [ovalue]))
    | some (.strs l) => .ok (dictInsert data "authors" (.strs (l ++ [ovalue])))
    | some (.str _) => .error .attributeError
  else if attrs.contains oname ∧ oname ≠ "authors" then
    if containsK data oname then .error .assertionError
    else .ok (dictInsert data oname (.str ovalue))
  else .error (.unknownOption oname)

/-- `oname, ovalue = option.split('=')` followed by the dispatch: the
unpacking raises `ValueError` unless the split yields exactly two parts. -/
def processToken (attrs : List String) (data : Record) (tok : String) :
    Except Err Record :=
  match pySplit tok '=' with
  | [oname, ovalue] => applyOption attrs data oname ovalue
  | _ => .error .unpackError

/-- The inner `for option in spec.split(':')` loop, after the first token
has been taken as the output filename. -/
def processOptions (attrs : List String) (data : Record) :
    List String → Except Err Record
  | [] => .ok data
  | t :: ts =>
    match processToken attrs data t with
    | .error e => .error e
    | .ok d => processOptions attrs d ts

/-- Parsing of one line: the first colon-delimited token is the output
filename, the remaining tokens are options.  (`pySplit` never returns `[]`,
so the first branch is unreachable.) -/
def parseLine (attrs : List String) (spec : String) : Except Err (String × Record) :=
  match pySplit spec ':' with
  | [] => .ok ("", [])
  | outputfile :: opts =>
    match processOptions attrs [] opts with
    | .error e => .error e
    | .ok data => .ok (outputfile, data)

/-- The output filename a line declares: its first colon-delimited token. -/
def firstToken (l : String) : String := (pySplit l ':').headD ""

/-- The mapping from output filename to page record (`manpages_data`). -/
abbrev ManpagesData := List (String × Record)

/-- The outer `for spec in string.strip().split('\n')` loop of
`parse_manpages_spec`, threading the accumulated dict. -/
def parseLinesAux (attrs : List String) (acc : ManpagesData) :
    List String → Except Err ManpagesData
  | [] => .ok acc
  | spec :: rest =>
    match parseLine attrs spec with
    | .error e => .error e
    | .ok (outputfile, data) => parseLinesAux attrs (dictInsert acc outputfile data) rest

/-- `parse_manpages_spec` (source lines 37-78), parametric in the
`MANPAGE_DATA_ATTRS` allow-list. -/
def parse_manpages_spec (attrs : List String) (string : String) :
    Except Err ManpagesData :=
  parseLinesAux attrs [] (pySplit (pyStrip string) '\n')

/-- Whether an `Except` result is a success. -/
def exceptIsOk {ε α : Type} : Except ε α → Bool
  | .ok _ => true
  | .error _ => false

/-- A well-formed `name=value` token whose name is neither special-cased nor
in the allow-list. -/
def tokenUnknown (attrs : List String) (t : String) : Bool :=
  match pySplit t '=' with
  | [n, _] => !(SPECIAL_OPTS.contains n) && !(attrs.contains n)
  | _ => false

/-- A well-formed `name=value` token with the given name. -/
def tokenNamed (n : String) (t : String) : Bool :=
  match pySplit t '=' with
  | [m, _] => m == n
  | _ => false

/-- Some line of the (stripped, split) specification text has an option
token whose name is unrecognized. -/
def textHasUnknownOpt (attrs : List String) (s : String) : Bool :=
  (pySplit (pyStrip s) '\n').any fun l => ((pySplit l ':').tail).any (tokenUnknown attrs)

/-- Some line of the specification text has an option token named `n`. -/
def textHasOptNamed (n : String) (s : String) : Bool :=
  (pySplit (pyStrip s) '\n').any fun l => ((pySplit l ':').tail).any (tokenNamed n)

/-! ### Settings resolution (`get_pyproject_settings`, `finalize_options`) -/

/-- The value a pyproject document holds at the key path
`tool.build_manpages.manpages`: a string or a list of strings (spec §6). -/
inductive TomlVal where
  | str (s : String)
  | strs (l : List String)
deriving DecidableEq, Repr

/-- `"\n".join(value)` when the value is a list, the string itself otherwise
(followed by `str(...)`, the identity on strings). -/
def tomlToString : TomlVal → String
  | .str s => s
  | .strs l => String.intercalate "\n" l

/-- The state of `pyproject.toml` as `get_pyproject_settings` can observe
it: the file is missing (`open` raises `FileNotFoundError`, which the
function does not catch), it fails to parse (`TOMLDecodeError`, caught), or
it parses and the key path `tool.build_manpages.manpages` is either missing
(`KeyError`, caught) or holds a value. -/
inductive PyprojectFile where
  | absent
  | invalid
  | parsed (manpages : Option TomlVal)
deriving DecidableEq, Repr

/-- Errors escaping `finalize_options`. -/
inductive FinErr where
  | fileNotFound
  | optionMissing
  | parseErr (e : Err)
deriving DecidableEq, Repr

/-- `get_pyproject_settings` (source lines 80-94): `.ok none` models the
`return None` paths, `.error .fileNotFound` the uncaught `FileNotFoundError`
of `open("pyproject.toml")`. -/
def get_pyproject_settings (pp : PyprojectFile) : Except FinErr (Option String) :=
  match pp with
  | .absent => .error .fileNotFound
  | .invalid => .ok none
  | .parsed none => .ok none
  | .parsed (some v) => .ok (some (tomlToString v))

/-- Python truthiness of `self.manpages` (an optional string). -/
def pyTruthy : Option String → Bool
  | none => false
  | some s => !(s == "")

/-- `build_manpages.finalize_options` (source lines 106-110):
`manpages = self.manpages or get_pyproject_settings()`, configuration-missing
check, then the parse.  The subsequent per-record completion loop delegates
to `get_manpage_data_from_distribution`, an external collaborator outside
the modelled core, so the result here is the parsed mapping. -/
def finalize_options (attrs : List String) (manpages_opt : Option String)
    (pp : PyprojectFile) : Except FinErr ManpagesData :=
  match (if pyTruthy manpages_opt then Except.ok manpages_opt
         else get_pyproject_settings pp) with
  | .error e => .error e
  | .ok none => .error FinErr.optionMissing
  | .ok (some s) =>
    if s = "" then .error FinErr.optionMissing
    else Except.mapError FinErr.parseErr (parse_manpages_spec attrs s)

/-! ### The generation dispatcher (`build_manpages.run`) -/

/-- Python truthiness of `data.get('manfile')`. -/
def truthy : Option Value → Bool
  | none => false
  | some (.str s) => !(s == "")
  | some (.strs l) => !l.isEmpty

/-- Observable actions of `run`: console notices and the calls into the
external collaborators (`get_parser`, `Manpage`+`write_to_filename`,
`ManPageWriter.write`). -/
inductive Event where
  | usingPrewritten (page : String)
  | generating (page : String)
  | resolveParser (import_type import_from objname objtype : Value) (prog : Option Value)
  | writeManpage (page : String) (format : Value)
  | writeOld (page : String)
deriving DecidableEq, Repr

/-- Errors `run` itself raises (beyond those of external collaborators):
`KeyError` for the unguarded `data['...']` subscripts, and the
`ValueError("Unknown format: ...")`. -/
inductive RunErr where
  | keyError (k : String)
  | unknownFormat (v : Value)
deriving DecidableEq, Repr

/-- The body of `run`'s loop for one non-`manfile` record (source lines
121-134): the "generating" notice, parser resolution from
`data['import_type']`, `data['import_from']`, `data['objname']`,
`data['objtype']` and `data.get('prog', None)`, then the dispatch on
`data.get('format', 'pretty')`.  Returns the trace emitted so far and the
error, if any. -/
def processRecord (page : String) (data : Record) : List Event × Option RunErr :=
  match dictLookup data "import_type" with
  | none => ([Event.generating page], some (RunErr.keyError "import_type"))
  | some it =>
    match dictLookup data "import_from" with
    | none => ([Event.generating page], some (RunErr.keyError "import_from"))
    | some ifrom =>
      match dictLookup data "objname" with
      | none => ([Event.generating page], some (RunErr.keyError "objname"))
      | some objname =>
        match dictLookup data "objtype" with
        | none => ([Event.generating page], some (RunErr.keyError "objtype"))
        | some objtype =>
          let resolve := Event.resolveParser it ifrom objname objtype
            (dictLookup data "prog")
          let fmt := (dictLookup data "format").getD (Value.str "pretty")
          if fmt = Value.str "pretty" ∨ fmt = Value.str "single-commands-section" then
            ([Event.generating page, resolve, Event.writeManpage page fmt], none)
          else if fmt = Value.str "old" then
            ([Event.generating page, resolve, Event.writeOld page], none)
          else
            ([Event.generating page, resolve], some (RunErr.unknownFormat fmt))

/-- `build_manpages.run` (source lines 116-134) over the items of
`manpages_data`: a record with a truthy `manfile` prints the
"using pre-written" notice and `return`s, ending the whole loop; otherwise
the record is processed and, on success, iteration continues. -/
def runRecords : List (String × Record) → List Event × Option RunErr
  | [] => ([], none)
  | (page, data) :: rest =>
    if truthy (dictLookup data "manfile") then
      ([Event.usingPrewritten page], none)
    else
      match processRecord page data with
      | (evs, some e) => (evs, some e)
      | (evs, none) =>
        let r := runRecords rest
        (evs ++ r.1, r.2)

/-! ### Dictionary lemmas -/

theorem dictLookup_dictInsert {β : Type} (m : List (String × β)) (k : String) (v : β)
    (k' : String) :
    dictLookup (dictInsert m k v) k' = if k = k' then some v else dictLookup m k' := by
  induction m with
  | nil => simp [dictInsert, dictLookup]
  | cons p rest ih =>
    obtain ⟨a, b⟩ := p
    by_cases hak : a = k
    · subst hak
      simp only [dictInsert, if_pos rfl, dictLookup]
      by_cases hk : a = k' <;> simp [hk]
    · simp only [dictInsert, if_neg hak, dictLookup, ih]
      by_cases hk : a = k' <;> by_cases hkk : k = k' <;> simp_all

theorem mem_keys_dictInsert {β : Type} (m : List (String × β)) (k : String) (v : β)
    (f : String) :
    f ∈ (dictInsert m k v).map Prod.fst ↔ f = k ∨ f ∈ m.map Prod.fst := by
  induction m with
  | nil => simp [dictInsert]
  | cons p rest ih =>
    obtain ⟨a, b⟩ := p
    by_cases hak : a = k
    · subst hak
      simp only [dictInsert, if_pos rfl, List.map_cons, List.mem_cons, reduceIte]
      tauto
    · simp only [dictInsert, if_neg hak, List.map_cons, List.mem_cons, ih]
      tauto

theorem nodup_keys_dictInsert {β : Type} (m : List (String × β)) (k : String) (v : β)
    (h : (m.map Prod.fst).Nodup) : ((dictInsert m k v).map Prod.fst).Nodup := by
  induction m with
  | nil => simp [dictInsert]
  | cons p rest ih =>
    obtain ⟨a, b⟩ := p
    simp only [List.map_cons, List.nodup_cons] at h
    by_cases hak : a = k
    · subst hak
      simpa [dictInsert, List.nodup_cons] using h
    · simp only [dictInsert, if_neg hak, List.map_cons, List.nodup_cons]
      refine ⟨?_, ih h.2⟩
      rw [mem_keys_dictInsert]
      rintro (rfl | hmem)
      · exact hak rfl
      · exact h.1 hmem

/-! ### Lemmas about the character-level split -/

theorem splitChars_ne_nil (sep : Char) (l : List Char) : splitChars sep l ≠ [] := by
  cases l with
  | nil => simp [splitChars]
  | cons c cs =>
    simp only [splitChars]
    split
    · simp
    · split <;> simp

theorem splitChars_of_not_mem (sep : Char) (l : List Char) (h : sep ∉ l) :
    splitChars sep l = [l] := by
  induction l with
  | nil => rfl
  | cons c cs ih =>
    have hc : ¬c = sep := fun hcs => h (hcs ▸ List.mem_cons_self c cs)
    have hcs : sep ∉ cs := fun hx => h (List.mem_cons_of_mem c hx)
    simp [splitChars, hc, ih hcs]

theorem splitChars_append_sep (sep : Char) (l1 l2 : List Char) (h : sep ∉ l1) :
    splitChars sep (l1 ++ sep :: l2) = l1 :: splitChars sep l2 := by
  induction l1 with
  | nil => simp [splitChars]
  | cons c cs ih =>
    have hc : ¬c = sep := fun hcs => h (hcs ▸ List.mem_cons_self c cs)
    have hcs : sep ∉ cs := fun hx => h (List.mem_cons_of_mem c hx)
    simp [splitChars, hc, ih hcs]

theorem string_data_append (a b : String) : (a ++ b).data = a.data ++ b.data := by
  cases a; cases b; rfl

theorem string_mk_data (s : String) : String.mk s.data = s := by
  cases s; rfl

theorem pySplit_pair (a b : String) (ha : '=' ∉ a.data) (hb : '=' ∉ b.data) :
    pySplit (a ++ "=" ++ b) '=' = [a, b] := by
  have hdata : (a ++ "=" ++ b).data = a.data ++ '=' :: b.data := by
    simp [string_data_append]
  simp only [pySplit, hdata, splitChars_append_sep '=' a.data b.data ha,
    splitChars_of_not_mem '=' b.data hb, List.map_cons, List.map_nil,
    string_mk_data]

theorem pySplit_triple (a b c : String) (ha : '=' ∉ a.data) (hb : '=' ∉ b.data)
    (hc : '=' ∉ c.data) : pySplit (a ++ "=" ++ b ++ "=" ++ c) '=' = [a, b, c] := by
  have hdata : (a ++ "=" ++ b ++ "=" ++ c).data
      = a.data ++ '=' :: (b.data ++ '=' :: c.data) := by
    simp [string_data_append]
  simp only [pySplit, hdata, splitChars_append_sep '=' a.data _ ha,
    splitChars_append_sep '=' b.data c.data hb,
    splitChars_of_not_mem '=' c.data hc, List.map_cons, List.map_nil,
    string_mk_data]

theorem pySplit_no_sep (t : String) (sep : Char) (h : sep ∉ t.data) :
    pySplit t sep = [t] := by
  simp [pySplit, splitChars_of_not_mem sep t.data h, string_mk_data]

/-! ### Structure of successful parses -/

theorem parseLine_fst (attrs : List String) (l out : String) (d : Record)
    (h : parseLine attrs l = .ok (out, d)) : out = firstToken l := by
  unfold parseLine at h
  unfold firstToken
  split at h
  · rename_i hsp
    simp only [Except.ok.injEq, Prod.mk.injEq] at h
    rw [hsp, ← h.1]
    rfl
  · rename_i outputfile opts hsp
    split at h
    · exact absurd h (by simp)
    · simp only [Except.ok.injEq, Prod.mk.injEq] at h
      rw [hsp, ← h.1]
      rfl

theorem parseLinesAux_spec (attrs : List String) (ls : List String) :
    ∀ acc m : ManpagesData, parseLinesAux attrs acc ls = .ok m →
      (∀ f, dictLookup m f =
          (((ls.filter fun l => firstToken l == f).getLast?.map
            (fun l => (parseLine attrs l).toOption.map Prod.snd)).getD
              (dictLookup acc f))) ∧
      (∀ f, f ∈ m.map Prod.fst ↔ f ∈ acc.map Prod.fst ∨ ∃ l, l ∈ ls ∧ firstToken l = f) ∧
      ((acc.map Prod.fst).Nodup → (m.map Prod.fst).Nodup) := by
  induction ls with
  | nil =>
    intro acc m h
    simp only [parseLinesAux, Except.ok.injEq] at h
    subst h
    exact ⟨fun f => by simp, fun f => by simp, id⟩
  | cons l ls ih =>
    intro acc m h
    simp only [parseLinesAux] at h
    cases hl : parseLine attrs l with
    | error e => rw [hl] at h; exact absurd h (by simp)
    | ok p =>
      obtain ⟨out, data⟩ := p
      simp only [hl] at h
      have hout : out = firstToken l := parseLine_fst attrs l out data hl
      obtain ⟨ihL, ihM, ihN⟩ := ih (dictInsert acc out data) m h
      refine ⟨?_, ?_, ?_⟩
      · intro f
        rw [ihL f]
        by_cases hf : firstToken l = f
        · have hbeq : (firstToken l == f) = true := by simp [hf]
          rw [List.filter_cons_of_pos (by simpa using hbeq)]
          cases hfl : ls.filter (fun l' => firstToken l' == f) with
          | nil =>
            simp only [hfl, List.getLast?_nil, Option.map_none', Option.getD_none,
              List.getLast?_singleton, Option.map_some', Option.getD_some]
            rw [dictLookup_dictInsert]
            rw [if_pos (hout ▸ hf), hl]
            rfl
          | cons x xs =>
            rw [List.getLast?_cons_cons]
            cases hg : (x :: xs).getLast? with
            | none => exact absurd hg (by simp)
            | some y => simp [hg]
        · have hbeq : (firstToken l == f) = false := by simp [hf]
          rw [List.filter_cons_of_neg (by simp [hbeq])]
          cases hfl : ls.filter (fun l' => firstToken l' == f) with
          | nil =>
            simp only [hfl, List.getLast?_nil, Option.map_none', Option.getD_none]
            rw [dictLookup_dictInsert, if_neg fun hcon => hf (hout ▸ hcon)]
          | cons x xs =>
            cases hg : (x :: xs).getLast? with
            | none => exact absurd hg (by simp)
            | some y => simp [hfl, hg]
      · intro f
        rw [ihM f, mem_keys_dictInsert]
        constructor
        · rintro ((rfl | hacc) | ⟨l', hl', hft⟩)
          · exact Or.inr ⟨l, List.mem_cons_self l ls, hout.symm⟩
          · exact Or.inl hacc
          · exact Or.inr ⟨l', List.mem_cons_of_mem l hl', hft⟩
        · rintro (hacc | ⟨l', hl', hft⟩)
          · exact Or.inl (Or.inr hacc)
          · rcases List.mem_cons.mp hl' with rfl | hmem
            · exact Or.inl (Or.inl (hout.trans hft).symm)
            · exact Or.inr ⟨l', hmem, hft⟩
      · exact fun hacc => ihN (nodup_keys_dictInsert acc out data hacc)

/-! ### Failure propagation -/

theorem processOptions_error (attrs : List String) (bad : String → Bool)
    (hbad : ∀ data t, bad t = true → ∃ e, processToken attrs data t = .error e) :
    ∀ (ts : List String) (data : Record), ts.any bad = true →
      ∃ e, processOptions attrs data ts = .error e := by
  intro ts
  induction ts with
  | nil => intro data h; simp at h
  | cons t ts ih =>
    intro data h
    by_cases hbt : bad t = true
    · obtain ⟨e, he⟩ := hbad data t hbt
      exact ⟨e, by simp [processOptions, he]⟩
    · have hbf : bad t = false := by
        cases hb : bad t
        · rfl
        · exact absurd hb hbt
      have hts : ts.any bad = true := by
        rw [List.any_cons, hbf, Bool.false_or] at h
        exact h
      cases hpt : processToken attrs data t with
      | error e => exact ⟨e, by simp [processOptions, hpt]⟩
      | ok d =>
        obtain ⟨e, he⟩ := ih d hts
        exact ⟨e, by simp [processOptions, hpt, he]⟩

theorem parseLine_error (attrs : List String) (bad : String → Bool)
    (hbad : ∀ data t, bad t = true → ∃ e, processToken attrs data t = .error e)
    (l : String) (h : ((pySplit l ':').tail).any bad = true) :
    ∃ e, parseLine attrs l = .error e := by
  unfold parseLine
  cases hsp : pySplit l ':' with
  | nil => rw [hsp] at h; simp at h
  | cons o opts =>
    rw [hsp] at h
    simp only [List.tail_cons] at h
    obtain ⟨e, he⟩ := processOptions_error attrs bad hbad opts [] h
    exact ⟨e, by simp [he]⟩

theorem parseLinesAux_error (attrs : List String) (bad : String → Bool)
    (hbad : ∀ data t, bad t = true → ∃ e, processToken attrs data t = .error e) :
    ∀ (ls : List String) (acc : ManpagesData),
      (ls.any fun l => ((pySplit l ':').tail).any bad) = true →
      ∃ e, parseLinesAux attrs acc ls = .error e := by
  intro ls
  induction ls with
  | nil => intro acc h; simp at h
  | cons l ls ih =>
    intro acc h
    by_cases hbl : ((pySplit l ':').tail).any bad = true
    · obtain ⟨e, he⟩ := parseLine_error attrs bad hbad l hbl
      exact ⟨e, by simp [parseLinesAux, he]⟩
    · have hbf : ((pySplit l ':').tail).any bad = false := by
        cases hb : ((pySplit l ':').tail).any bad
        · rfl
        · exact absurd hb hbl
      have hls : (ls.any fun l => ((pySplit l ':').tail).any bad) = true := by
        rw [List.any_cons] at h
        simp only [hbf, Bool.false_or] at h
        exact h
      cases hpl : parseLine attrs l with
      | error e => exact ⟨e, by simp [parseLinesAux, hpl]⟩
      | ok p =>
        obtain ⟨out, data⟩ := p
        obtain ⟨e, he⟩ := ih (dictInsert acc out data) hls
        exact ⟨e, by simp [parseLinesAux, hpl, he]⟩

theorem applyOption_unknown (attrs : List String) (data : Record) (oname ovalue : String)
    (h1 : oname ∉ SPECIAL_OPTS) (h2 : oname ∉ attrs) :
    applyOption attrs data oname ovalue = .error (.unknownOption oname) := by
  simp only [SPECIAL_OPTS, List.mem_cons, List.not_mem_nil, or_false, not_or] at h1
  obtain ⟨hfun, hobj, hpy, hmod, hfmt, hauth⟩ := h1
  simp [applyOption, hfun, hobj, hpy, hmod, hfmt, hauth, h2]

theorem processToken_tokenUnknown (attrs : List String) (data : Record) (t : String)
    (h : tokenUnknown attrs t = true) : ∃ e, processToken attrs data t = .error e := by
  unfold tokenUnknown at h
  unfold processToken
  split at h
  · rename_i n v heq
    simp only [Bool.and_eq_true, Bool.not_eq_true'] at h
    exact ⟨.unknownOption n,
      applyOption_unknown attrs data n v (by simpa using h.1) (by simpa using h.2)⟩
  · exact absurd h (by simp)

theorem applyOption_authors (attrs : List String) (data : Record) (ovalue : String) :
    applyOption attrs data "authors" ovalue = .error (.unknownOption "authors") := by
  simp [applyOption]

theorem processToken_tokenAuthors (attrs : List String) (data : Record) (t : String)
    (h : tokenNamed "authors" t = true) : ∃ e, processToken attrs data t = .error e := by
  unfold tokenNamed at h
  unfold processToken
  split at h
  · rename_i n v heq
    have hn : n = "authors" := by simpa using h
    subst hn
    exact ⟨.unknownOption "authors", applyOption_authors attrs data v⟩
  · exact absurd h (by simp)

instance {ε α : Type} [DecidableEq ε] [DecidableEq α] : DecidableEq (Except ε α) := fun a b =>
  match a, b with
  | .ok x, .ok y =>
    match decEq x y with
    | isTrue h => isTrue (h ▸ rfl)
    | isFalse h => isFalse fun c => h (Except.ok.inj c)
  | .ok _, .error _ => isFalse fun c => Except.noConfusion c
  | .error _, .ok _ => isFalse fun c => Except.noConfusion c
  | .error x, .error y =>
    match decEq x y with
    | isTrue h => isTrue (h ▸ rfl)
    | isFalse h => isFalse fun c => h (Except.error.inj c)

/-! ### Unfolding lemmas for the dispatcher -/

theorem runRecords_cons_manfile (pg : String) (d : Record) (rest : List (String × Record))
    (hman : truthy (dictLookup d "manfile") = true) :
    runRecords ((pg, d) :: rest) = ([Event.usingPrewritten pg], none) := by
  simp [runRecords, hman]

theorem runRecords_cons_ok (pg : String) (d : Record) (rest : List (String × Record))
    (evsP : List Event) (hman : truthy (dictLookup d "manfile") = false)
    (hproc : processRecord pg d = (evsP, none)) :
    runRecords ((pg, d) :: rest) = (evsP ++ (runRecords rest).1, (runRecords rest).2) := by
  simp [runRecords, hman, hproc]

theorem runRecords_cons_err (pg : String) (d : Record) (rest : List (String × Record))
    (evsP : List Event) (e : RunErr) (hman : truthy (dictLookup d "manfile") = false)
    (hproc : processRecord pg d = (evsP, some e)) :
    runRecords ((pg, d) :: rest) = (evsP, some e) := by
  simp [runRecords, hman, hproc]

/-! ## Claims -/

/-- C1: in `build_manpages.run`, when the first record whose `manfile` field
is truthy is reached (every earlier record has a falsy `manfile` and was
processed without error, yielding the trace `evs`), the "using pre-written"
notice is emitted for it and the whole remaining list is abandoned: the
complete trace is exactly `evs` followed by that single notice, so no
parser-resolution, rendering or writing event occurs for that record or for
any record after it. -/
theorem C1_run_stops_on_first_manfile
    (pre : List (String × Record)) (page : String) (data : Record)
    (post : List (String × Record)) (evs : List Event)
    (hpre : ∀ r ∈ pre, truthy (dictLookup r.2 "manfile") = false)
    (hrun : runRecords pre = (evs, none))
    (hman : truthy (dictLookup data "manfile") = true) :
    runRecords (pre ++ (page, data) :: post) =
      (evs ++ [Event.usingPrewritten page], none) := by
  induction pre generalizing evs with
  | nil =>
    simp only [runRecords] at hrun
    injection hrun with h1 h2
    subst h1
    rw [List.nil_append, runRecords_cons_manfile page data post hman]
    simp
  | cons p pre ih =>
    obtain ⟨pg, d⟩ := p
    have hp : truthy (dictLookup d "manfile") = false :=
      hpre (pg, d) (List.mem_cons_self _ _)
    have hpre' : ∀ r ∈ pre, truthy (dictLookup r.2 "manfile") = false :=
      fun r hr => hpre r (List.mem_cons_of_mem _ hr)
    rcases hproc : processRecord pg d with ⟨evsP, errP⟩
    cases errP with
    | some e =>
      rw [runRecords_cons_err pg d pre evsP e hp hproc] at hrun
      injection hrun with h1 h2
      exact Option.noConfusion h2
    | none =>
      rw [runRecords_cons_ok pg d pre evsP hp hproc] at hrun
      rcases hrr : runRecords pre with ⟨evs', err'⟩
      rw [hrr] at hrun
      injection hrun with h1 h2
      subst h2
      have hih := ih evs' hpre' hrr
      rw [List.cons_append, runRecords_cons_ok pg d _ evsP hp hproc, hih]
      simp [← h1, List.append_assoc]

/-- C1 witness: a concrete run with one ordinary record, then a record with
a truthy `manfile`, then a further record that is silently skipped. -/
theorem C1_witness :
    runRecords
      ([("g.1", [("import_type", Value.str "module"), ("import_from", Value.str "x"),
                 ("objname", Value.str "main"), ("objtype", Value.str "function")])] ++
        ("p.1", [("manfile", Value.str "man/p.1")]) :: [("x.1", ([] : Record))]) =
      ([Event.generating "g.1",
        Event.resolveParser (Value.str "module") (Value.str "x") (Value.str "main")
          (Value.str "function") none,
        Event.writeManpage "g.1" (Value.str "pretty")] ++
        [Event.usingPrewritten "p.1"], none) :=
  C1_run_stops_on_first_manfile
    [("g.1", [("import_type", Value.str "module"), ("import_from", Value.str "x"),
              ("objname", Value.str "main"), ("objtype", Value.str "function")])]
    "p.1" [("manfile", Value.str "man/p.1")] [("x.1", [])]
    [Event.generating "g.1",
     Event.resolveParser (Value.str "module") (Value.str "x") (Value.str "main")
       (Value.str "function") none,
     Event.writeManpage "g.1" (Value.str "pretty")]
    (by decide) rfl rfl

/-- C2 counterexample: with an absent override and no `pyproject.toml` file
at all, `finalize_options` propagates the uncaught `FileNotFoundError` of
`open("pyproject.toml")` instead of raising the configuration-missing
`DistutilsOptionError`, contradicting the claim that the absence of both
sources fails with a configuration-missing error. -/
theorem C2_counterexample :
    finalize_options MANPAGE_DATA_ATTRS none PyprojectFile.absent =
        .error FinErr.fileNotFound ∧
      finalize_options MANPAGE_DATA_ATTRS none PyprojectFile.absent ≠
        .error FinErr.optionMissing :=
  ⟨rfl, by decide⟩

/-- C2 (amended): a non-empty explicit override is used verbatim, whatever
the pyproject state; an empty or absent override falls back to the value at
`tool.build_manpages.manpages` (lists newline-joined); if the override is
empty/absent and the pyproject document exists but yields no non-empty
value, resolution fails with the configuration-missing error; if the
pyproject file itself is absent, a file-not-found error propagates
instead. -/
theorem C2_settings_precedence_amended :
    (∀ (attrs : List String) (s : String) (pp : PyprojectFile), s ≠ "" →
      finalize_options attrs (some s) pp =
        Except.mapError FinErr.parseErr (parse_manpages_spec attrs s)) ∧
    (∀ (attrs : List String) (ov : Option String) (v : TomlVal),
      (ov = none ∨ ov = some "") → tomlToString v ≠ "" →
      finalize_options attrs ov (PyprojectFile.parsed (some v)) =
        Except.mapError FinErr.parseErr (parse_manpages_spec attrs (tomlToString v))) ∧
    (∀ (attrs : List String) (ov : Option String) (pp : PyprojectFile),
      (ov = none ∨ ov = some "") →
      (pp = PyprojectFile.invalid ∨ pp = PyprojectFile.parsed none ∨
        ∃ v, pp = PyprojectFile.parsed (some v) ∧ tomlToString v = "") →
      finalize_options attrs ov pp = .error FinErr.optionMissing) ∧
    (∀ (attrs : List String) (ov : Option String), (ov = none ∨ ov = some "") →
      finalize_options attrs ov PyprojectFile.absent = .error FinErr.fileNotFound) := by
  refine ⟨?_, ?_, ?_, ?_⟩
  · intro attrs s pp hs
    simp [finalize_options, pyTruthy, hs]
  · intro attrs ov v hov hv
    rcases hov with rfl | rfl <;>
      simp [finalize_options, pyTruthy, get_pyproject_settings, hv]
  · intro attrs ov pp hov hpp
    rcases hov with rfl | rfl <;>
      [rcases hpp with rfl | rfl | ⟨v, rfl, hv⟩;
       rcases hpp with rfl | rfl | ⟨v, rfl, hv⟩] <;>
      first
      | simp [finalize_options, pyTruthy, get_pyproject_settings, hv]
      | simp [finalize_options, pyTruthy, get_pyproject_settings]
  · intro attrs ov hov
    rcases hov with rfl | rfl <;>
      simp [finalize_options, pyTruthy, get_pyproject_settings]

/-- C2 witness: the four amended clauses at concrete inputs. -/
theorem C2_witness :
    (finalize_options MANPAGE_DATA_ATTRS (some "a.1:module=x") PyprojectFile.absent =
      Except.mapError FinErr.parseErr
        (parse_manpages_spec MANPAGE_DATA_ATTRS "a.1:module=x")) ∧
    (finalize_options MANPAGE_DATA_ATTRS none
        (PyprojectFile.parsed (some (TomlVal.strs ["a.1:module=x", "b.1:module=y"]))) =
      Except.mapError FinErr.parseErr (parse_manpages_spec MANPAGE_DATA_ATTRS
        (tomlToString (TomlVal.strs ["a.1:module=x", "b.1:module=y"])))) ∧
    (finalize_options MANPAGE_DATA_ATTRS (some "") (PyprojectFile.parsed none) =
      .error FinErr.optionMissing) ∧
    (finalize_options MANPAGE_DATA_ATTRS none PyprojectFile.absent =
      .error FinErr.fileNotFound) :=
  ⟨C2_settings_precedence_amended.1 MANPAGE_DATA_ATTRS "a.1:module=x"
      PyprojectFile.absent (by decide),
   C2_settings_precedence_amended.2.1 MANPAGE_DATA_ATTRS none
      (TomlVal.strs ["a.1:module=x", "b.1:module=y"]) (Or.inl rfl) (by decide),
   C2_settings_precedence_amended.2.2.1 MANPAGE_DATA_ATTRS (some "")
      (PyprojectFile.parsed none) (Or.inr rfl) (Or.inr (Or.inl rfl)),
   C2_settings_precedence_amended.2.2.2 MANPAGE_DATA_ATTRS none (Or.inl rfl)⟩

/-- C3 counterexample: `parse_manpages_spec` only strips the surrounding
whitespace of the whole text, so an interior empty line is not skipped: it
contributes a record with the empty output filename, and the text does not
parse to the same mapping as the text with the empty line removed. -/
theorem C3_counterexample :
    parse_manpages_spec MANPAGE_DATA_ATTRS "a.1:module=x\n\nb.1:module=y" =
        .ok [("a.1", [("import_type", Value.str "module"),
                      ("import_from", Value.str "x")]),
             ("", []),
             ("b.1", [("import_type", Value.str "module"),
                      ("import_from", Value.str "y")])] ∧
      parse_manpages_spec MANPAGE_DATA_ATTRS "a.1:module=x\n\nb.1:module=y" ≠
        parse_manpages_spec MANPAGE_DATA_ATTRS "a.1:module=x\nb.1:module=y" :=
  ⟨rfl, by decide⟩

/-- C3 (amended): an empty line is not skipped; it parses as a declaration
of the empty output filename with an empty field mapping, and any
successfully parsed specification one of whose (post-strip) lines is empty
has the empty string among its output filenames.  Only the leading and
trailing whitespace of the whole text is removed. -/
theorem C3_empty_lines_amended :
    (∀ attrs : List String, parseLine attrs "" = .ok ("", ([] : Record))) ∧
    (∀ (attrs : List String) (s : String) (m : ManpagesData),
      parse_manpages_spec attrs s = .ok m → "" ∈ pySplit (pyStrip s) '\n' →
      "" ∈ m.map Prod.fst) := by
  refine ⟨fun attrs => rfl, ?_⟩
  intro attrs s m h hmem
  obtain ⟨-, hM, -⟩ := parseLinesAux_spec attrs (pySplit (pyStrip s) '\n') [] m h
  exact (hM "").mpr (Or.inr ⟨"", hmem, rfl⟩)

/-- C3 witness: the text of the counterexample, with its interior empty
line, yields a mapping whose keys include the empty filename. -/
theorem C3_witness :
    "" ∈ (([("a.1", [("import_type", Value.str "module"),
                     ("import_from", Value.str "x")]),
            ("", ([] : Record)),
            ("b.1", [("import_type", Value.str "module"),
                     ("import_from", Value.str "y")])] : ManpagesData).map Prod.fst) :=
  C3_empty_lines_amended.2 MANPAGE_DATA_ATTRS "a.1:module=x\n\nb.1:module=y" _ rfl
    (by decide)

/-- C4 counterexample: a token whose value contains a `'='` does not parse
with the remainder as the value; the 2-tuple unpacking of
`option.split('=')` raises a `ValueError`, so the whole parse fails. -/
theorem C4_counterexample :
    parse_manpages_spec MANPAGE_DATA_ATTRS "a.1:description=a=b" =
      .error Err.unpackError := rfl

/-- C4 (amended): an option token must contain exactly one `'='`: a token
`name=value` with `'='`-free name and value is split there into
`(name, value)`; a token with two or more `'='` (in particular one whose
value contains `'='`), or with none, fails the whole parse with the
unpack `ValueError`. -/
theorem C4_token_split_amended :
    (∀ (attrs : List String) (data : Record) (oname ovalue : String),
      '=' ∉ oname.data → '=' ∉ ovalue.data →
      processToken attrs data (oname ++ "=" ++ ovalue) =
        applyOption attrs data oname ovalue) ∧
    (∀ (attrs : List String) (data : Record) (oname v1 v2 : String),
      '=' ∉ oname.data → '=' ∉ v1.data → '=' ∉ v2.data →
      processToken attrs data (oname ++ "=" ++ v1 ++ "=" ++ v2) =
        .error Err.unpackError) ∧
    (∀ (attrs : List String) (data : Record) (t : String), '=' ∉ t.data →
      processToken attrs data t = .error Err.unpackError) := by
  refine ⟨?_, ?_, ?_⟩
  · intro attrs data oname ovalue h1 h2
    simp [processToken, pySplit_pair oname ovalue h1 h2]
  · intro attrs data oname v1 v2 h1 h2 h3
    simp [processToken, pySplit_triple oname v1 v2 h1 h2 h3]
  · intro attrs data t h
    simp [processToken, pySplit_no_sep t '=' h]

/-- C4 witness: the three amended clauses at concrete tokens. -/
theorem C4_witness :
    (processToken MANPAGE_DATA_ATTRS [] ("description" ++ "=" ++ "x") =
      applyOption MANPAGE_DATA_ATTRS [] "description" "x") ∧
    (processToken MANPAGE_DATA_ATTRS [] ("description" ++ "=" ++ "a" ++ "=" ++ "b") =
      .error Err.unpackError) ∧
    (processToken MANPAGE_DATA_ATTRS [] "noequals" = .error Err.unpackError) :=
  ⟨C4_token_split_amended.1 MANPAGE_DATA_ATTRS [] "description" "x"
      (by decide) (by decide),
   C4_token_split_amended.2.1 MANPAGE_DATA_ATTRS [] "description" "a" "b"
      (by decide) (by decide) (by decide),
   C4_token_split_amended.2.2 MANPAGE_DATA_ATTRS [] "noequals" (by decide)⟩

/-- C5 counterexample: an explicitly specified `prog` IS replaced by the
`pyfile` derivation: `prog=myprog` followed by `pyfile=/path/to/tool.py`
ends with `prog="tool.py"`, not `"myprog"` (the `pyfile` branch assigns
`prog` unconditionally). -/
theorem C5_counterexample :
    parse_manpages_spec MANPAGE_DATA_ATTRS "a.1:prog=myprog:pyfile=/path/to/tool.py" =
      .ok [("a.1", [("prog", Value.str "tool.py"),
                    ("import_type", Value.str "pyfile"),
                    ("import_from", Value.str "/path/to/tool.py")])] := rfl

/-- C5 (amended): processing a `pyfile` option always sets `prog` to the
filesystem base-name of the value, overwriting any `prog` specified earlier
in the line; a `prog` option arriving after `pyfile` fails the
duplicate-field assertion; with no explicit `prog`,
`pyfile=/path/to/tool.py` yields `prog="tool.py"`. -/
theorem C5_prog_derivation_amended :
    (∀ attrs : List String,
      parse_manpages_spec attrs "a.1:pyfile=/path/to/tool.py" =
        .ok [("a.1", [("import_type", Value.str "pyfile"),
                      ("import_from", Value.str "/path/to/tool.py"),
                      ("prog", Value.str "tool.py")])]) ∧
    (∀ (attrs : List String) (data : Record) (ovalue : String),
      containsK data "import_type" = false →
      Except.map (fun d => dictLookup d "prog")
          (applyOption attrs data "pyfile" ovalue) =
        .ok (some (Value.str (basename ovalue)))) ∧
    (∀ (attrs : List String) (data : Record) (ovalue : String),
      attrs.contains "prog" = true → containsK data "prog" = true →
      applyOption attrs data "prog" ovalue = .error Err.assertionError) := by
  refine ⟨fun attrs => rfl, ?_, ?_⟩
  · intro attrs data ovalue h
    simp [applyOption, h, Except.map, dictLookup_dictInsert]
  · intro attrs data ovalue hattr hc
    have hattr' : "prog" ∈ attrs := by simpa using hattr
    simp [applyOption, hattr', hc]

/-- C5 witness: the amended clauses at concrete inputs, including a record
that already holds an explicit `prog` when `pyfile` is processed. -/
theorem C5_witness :
    (parse_manpages_spec MANPAGE_DATA_ATTRS "a.1:pyfile=/path/to/tool.py" =
      .ok [("a.1", [("import_type", Value.str "pyfile"),
                    ("import_from", Value.str "/path/to/tool.py"),
                    ("prog", Value.str "tool.py")])]) ∧
    (Except.map (fun d => dictLookup d "prog")
        (applyOption MANPAGE_DATA_ATTRS [("prog", Value.str "explicit")]
          "pyfile" "/path/to/tool.py") =
      .ok (some (Value.str (basename "/path/to/tool.py")))) ∧
    (applyOption MANPAGE_DATA_ATTRS [("prog", Value.str "explicit")] "prog" "x" =
      .error Err.assertionError) :=
  ⟨C5_prog_derivation_amended.1 MANPAGE_DATA_ATTRS,
   C5_prog_derivation_amended.2.1 MANPAGE_DATA_ATTRS
      [("prog", Value.str "explicit")] "/path/to/tool.py" (by decide),
   C5_prog_derivation_amended.2.2 MANPAGE_DATA_ATTRS
      [("prog", Value.str "explicit")] "x" (by decide) (by decide)⟩

/-- C6: an option whose name is neither one of
function/object/pyfile/module/format/author nor in the allow-list makes the
dispatch fail with the unrecognized-option error naming that field, and any
specification text containing such a (well-formed) option token fails to
parse: no mapping is returned. -/
theorem C6_unknown_option_rejected :
    (∀ (attrs : List String) (data : Record) (oname ovalue : String),
      oname ∉ SPECIAL_OPTS → oname ∉ attrs →
      applyOption attrs data oname ovalue = .error (Err.unknownOption oname)) ∧
    (∀ (attrs : List String) (s : String), textHasUnknownOpt attrs s = true →
      exceptIsOk (parse_manpages_spec attrs s) = false) := by
  refine ⟨applyOption_unknown, ?_⟩
  intro attrs s h
  unfold textHasUnknownOpt at h
  obtain ⟨e, he⟩ := parseLinesAux_error attrs (tokenUnknown attrs)
    (fun data t ht => processToken_tokenUnknown attrs data t ht)
    (pySplit (pyStrip s) '\n') [] h
  simp [parse_manpages_spec, he, exceptIsOk]

/-- C6 witness: the unknown option name `bogus` is rejected with the error
naming it, and a text containing `bogus=1` fails to parse. -/
theorem C6_witness :
    (applyOption MANPAGE_DATA_ATTRS [] "bogus" "1" =
      .error (Err.unknownOption "bogus")) ∧
    (exceptIsOk (parse_manpages_spec MANPAGE_DATA_ATTRS "a.1:module=x:bogus=1") =
      false) :=
  ⟨C6_unknown_option_rejected.1 MANPAGE_DATA_ATTRS [] "bogus" "1"
      (by decide) (by decide),
   C6_unknown_option_rejected.2 MANPAGE_DATA_ATTRS "a.1:module=x:bogus=1"
      (by decide)⟩

/-- C7: the exclusive fields may be set at most once per record: a
function/object option when `objtype` is already set, a pyfile/module option
when `import_type` is already set, and a format option when `format` is
already set all fail with the duplicate-field assertion error; in
particular a line that sets `function` twice fails. -/
theorem C7_duplicate_exclusive_fields :
    (∀ (attrs : List String) (data : Record) (oname ovalue : String),
      (oname = "function" ∨ oname = "object") → containsK data "objtype" = true →
      applyOption attrs data oname ovalue = .error Err.assertionError) ∧
    (∀ (attrs : List String) (data : Record) (oname ovalue : String),
      (oname = "pyfile" ∨ oname = "module") → containsK data "import_type" = true →
      applyOption attrs data oname ovalue = .error Err.assertionError) ∧
    (∀ (attrs : List String) (data : Record) (ovalue : String),
      containsK data "format" = true →
      applyOption attrs data "format" ovalue = .error Err.assertionError) ∧
    (∀ attrs : List String,
      parse_manpages_spec attrs "a.1:function=x:function=y" =
        .error Err.assertionError) := by
  refine ⟨?_, ?_, ?_, fun attrs => rfl⟩
  · intro attrs data oname ovalue ho hc
    rcases ho with rfl | rfl <;> simp [applyOption, hc]
  · intro attrs data oname ovalue ho hc
    rcases ho with rfl | rfl <;> simp [applyOption, hc]
  · intro attrs data ovalue hc
    simp [applyOption, hc]

/-- C7 witness: the three duplicate cases and the double-`function` line at
concrete inputs. -/
theorem C7_witness :
    (applyOption MANPAGE_DATA_ATTRS [("objtype", Value.str "function")] "object" "y" =
      .error Err.assertionError) ∧
    (applyOption MANPAGE_DATA_ATTRS [("import_type", Value.str "module")] "pyfile" "z" =
      .error Err.assertionError) ∧
    (applyOption MANPAGE_DATA_ATTRS [("format", Value.str "pretty")] "format" "old" =
      .error Err.assertionError) ∧
    (parse_manpages_spec MANPAGE_DATA_ATTRS "a.1:function=x:function=y" =
      .error Err.assertionError) :=
  ⟨C7_duplicate_exclusive_fields.1 MANPAGE_DATA_ATTRS
      [("objtype", Value.str "function")] "object" "y" (Or.inr rfl) (by decide),
   C7_duplicate_exclusive_fields.2.1 MANPAGE_DATA_ATTRS
      [("import_type", Value.str "module")] "pyfile" "z" (Or.inl rfl) (by decide),
   C7_duplicate_exclusive_fields.2.2.1 MANPAGE_DATA_ATTRS
      [("format", Value.str "pretty")] "old" (by decide),
   C7_duplicate_exclusive_fields.2.2.2 MANPAGE_DATA_ATTRS⟩

/-- C8: in a successful parse every declared output filename appears
exactly once as a key (the key list has no duplicates and a filename is a
key exactly when some line declares it), and the record looked up for a
filename is the one parsed from the LAST line declaring it: the whole
earlier record is replaced, fields are not merged. -/
theorem C8_last_write_wins (attrs : List String) (s : String) (m : ManpagesData)
    (h : parse_manpages_spec attrs s = .ok m) :
    ((m.map Prod.fst).Nodup) ∧
    (∀ f, f ∈ m.map Prod.fst ↔
      ∃ l, l ∈ pySplit (pyStrip s) '\n' ∧ firstToken l = f) ∧
    (∀ f, dictLookup m f =
      ((pySplit (pyStrip s) '\n').filter fun l => firstToken l == f).getLast?.bind
        fun l => (parseLine attrs l).toOption.map Prod.snd) := by
  obtain ⟨hL, hM, hN⟩ := parseLinesAux_spec attrs (pySplit (pyStrip s) '\n') [] m h
  refine ⟨hN (by simp), fun f => by simpa using hM f, fun f => ?_⟩
  rw [hL f]
  cases hg : ((pySplit (pyStrip s) '\n').filter fun l => firstToken l == f).getLast? with
  | none => simp [hg, dictLookup]
  | some y => simp [hg]

/-- C8 witness: a text that declares `a.1` twice parses to a mapping with
no duplicate keys (holding the last record for `a.1`). -/
theorem C8_witness :
    (([("a.1", [("import_type", Value.str "module"), ("import_from", Value.str "z")]),
       ("b.1", [("import_type", Value.str "module"), ("import_from", Value.str "y")])] :
        ManpagesData).map Prod.fst).Nodup :=
  (C8_last_write_wins MANPAGE_DATA_ATTRS "a.1:module=x\nb.1:module=y\na.1:module=z"
    _ rfl).1

/-- C9: the `author` option accumulates: parsing
`"a.1:function=main:module=foo:author=X:author=Y"` yields a record with
`objtype="function"`, `objname="main"`, `import_type="module"`,
`import_from="foo"` and `authors=["X","Y"]`, for every allow-list. -/
theorem C9_author_accumulates (attrs : List String) :
    parse_manpages_spec attrs "a.1:function=main:module=foo:author=X:author=Y" =
      .ok [("a.1", [("objtype", Value.str "function"),
                    ("objname", Value.str "main"),
                    ("import_type", Value.str "module"),
                    ("import_from", Value.str "foo"),
                    ("authors", Value.strs ["X", "Y"])])] := rfl

/-- C9 witness: the same parse at the concrete allow-list. -/
theorem C9_witness :
    parse_manpages_spec MANPAGE_DATA_ATTRS
        "a.1:function=main:module=foo:author=X:author=Y" =
      .ok [("a.1", [("objtype", Value.str "function"),
                    ("objname", Value.str "main"),
                    ("import_type", Value.str "module"),
                    ("import_from", Value.str "foo"),
                    ("authors", Value.strs ["X", "Y"])])] :=
  C9_author_accumulates MANPAGE_DATA_ATTRS

/-- C10: the plural option name `authors` is never accepted, whatever the
allow-list contains (the dispatch chain explicitly excludes it): the
dispatch fails with the unrecognized-option error naming `authors`, and any
text containing an `authors=...` token fails to parse. -/
theorem C10_authors_plural_rejected :
    (∀ (attrs : List String) (data : Record) (ovalue : String),
      applyOption attrs data "authors" ovalue =
        .error (Err.unknownOption "authors")) ∧
    (∀ (attrs : List String) (s : String), textHasOptNamed "authors" s = true →
      exceptIsOk (parse_manpages_spec attrs s) = false) := by
  refine ⟨applyOption_authors, ?_⟩
  intro attrs s h
  unfold textHasOptNamed at h
  obtain ⟨e, he⟩ := parseLinesAux_error attrs (tokenNamed "authors")
    (fun data t ht => processToken_tokenAuthors attrs data t ht)
    (pySplit (pyStrip s) '\n') [] h
  simp [parse_manpages_spec, he, exceptIsOk]

/-- C10 witness: `authors=X` is rejected even though `"authors"` is in the
(modelled) allow-list `MANPAGE_DATA_ATTRS`. -/
theorem C10_witness :
    (applyOption MANPAGE_DATA_ATTRS [] "authors" "X" =
      .error (Err.unknownOption "authors")) ∧
    (exceptIsOk (parse_manpages_spec MANPAGE_DATA_ATTRS "a.1:authors=X") = false) :=
  ⟨C10_authors_plural_rejected.1 MANPAGE_DATA_ATTRS [] "X",
   C10_authors_plural_rejected.2 MANPAGE_DATA_ATTRS "a.1:authors=X" (by decide)⟩

end ArgparseManpage
